import Mathlib

/-!
Verification development for the braintree-web request-routing and
configuration-integrity layer (the "Client"), its transport error
classifier, and the configuration-fetch collaborator
(`src/client/get-configuration.js`).

The Client implementation itself is not present in the repository slice;
only its test suite and the configuration-fetch collaborator are. The
Client-side definitions below are therefore modelled from the spec
(sections 4.1-4.4), with the observable constants (error codes, messages,
header names) taken from the test suite. The configuration-fetch function
is translated directly from `get-configuration.js`.
-/

set_option autoImplicit false

namespace Braintree

/-- A JSON-like value tree: either a primitive (modelled as its string
rendering, which is all the claims need) or an object with an ordered
field list. Mutual with `JsFields` to get clean structural recursion. -/
inductive JsTree where
  | prim : String → JsTree
  | node : List (String × JsTree) → JsTree
deriving Repr

mutual

/-- Decidable equality for `JsTree`, recursing through the nested field
list. -/
def JsTree.beq : JsTree → JsTree → Bool
  | .prim a, .prim b => a == b
  | .node fs, .node gs => JsTree.beqFields fs gs
  | _, _ => false

/-- Field-list companion of `JsTree.beq`. -/
def JsTree.beqFields : List (String × JsTree) → List (String × JsTree) → Bool
  | [], [] => true
  | (k, v) :: rest, (k2, v2) :: rest2 =>
      k == k2 && JsTree.beq v v2 && JsTree.beqFields rest rest2
  | _, _ => false

end

/-- Look up a field of an object field list (first match wins, as in a JS
object literal read). -/
def lookupField : List (String × JsTree) → String → Option JsTree
  | [], _ => none
  | (k, v) :: rest, key => if k = key then some v else lookupField rest key

/-- Set a field of an object field list: overwrite in place when present,
append otherwise (JS property assignment). -/
def setField : List (String × JsTree) → String → JsTree → List (String × JsTree)
  | [], key, val => [(key, val)]
  | (k, v) :: rest, key, val =>
      if k = key then (key, val) :: rest else (k, v) :: setField rest key val

/-- Error type tags as exposed by `BraintreeError.types` (the test suite
observes the strings INTERNAL, MERCHANT, NETWORK). -/
inductive ErrType where
  | internal
  | merchant
  | network
deriving DecidableEq, Repr

/-- A typed error: the stable `{type, code, message}` triple of spec
section 7, plus the optional `details.originalError` payload observed by
the 4xx classification test. -/
structure BtError where
  errType : ErrType
  code : String
  message : String
  originalError : Option JsTree := none
deriving Repr

/-- Structural equality for `BtError` via the field projections. -/
def BtError.beq (a b : BtError) : Bool :=
  a.errType == b.errType && a.code == b.code && a.message == b.message &&
    match a.originalError, b.originalError with
    | none, none => true
    | some x, some y => JsTree.beq x y
    | _, _ => false

instance : BEq ErrType := ⟨fun a b => decide (a = b)⟩

/-! ### Constants

SDK version string: the repository reads it from package metadata; its
exact value is immaterial to every claim, which only compare against the
constant itself. -/

def VERSION : String := "3.6.3"

/-- The `braintreeLibraryVersion` tag injected into legacy/clientApi
request data (`'braintree/web/' + VERSION` in the test suite). -/
def BRAINTREE_LIBRARY_VERSION : String := "braintree/web/" ++ VERSION

/-- The fixed protocol version sent in the `Braintree-Version` header for
braintreeApi requests (from the header test). -/
def BRAINTREE_API_VERSION : String := "2016-10-07"

/-! ### Gateway configuration data model (spec section 3) -/

/-- The `braintreeApi` sub-object of a gateway configuration. -/
structure BraintreeApiConfig where
  url : String
  accessToken : String
deriving Repr

/-- GatewayConfiguration, restricted to the named fields the core reads;
feature-specific sub-objects pass through opaquely and are not modelled.
Each URL field is optional (the domain validator checks it only "if
present"). -/
structure GatewayConfiguration where
  assetsUrl : Option String := none
  clientApiUrl : Option String := none
  configUrl : Option String := none
  braintreeApi : Option BraintreeApiConfig := none
deriving Repr

/-- Analytics metadata carried by a configuration snapshot. Only
`sessionId` is read by the request path. -/
structure AnalyticsMetadata where
  sdkVersion : String := VERSION
  merchantAppId : String := ""
  sessionId : String := ""
  platform : String := ""
  source : String := ""
  integration : String := ""
  integrationType : String := ""
deriving Repr

/-- ConfigurationSnapshot (spec section 3). -/
structure ConfigurationSnapshot where
  authorization : String
  analyticsMetadata : AnalyticsMetadata
  gatewayConfiguration : GatewayConfiguration
deriving Repr

/-! ### Request descriptor and resolved call (spec section 3) -/

/-- RequestDescriptor. `api` is kept as an optional *string* so that the
boundary case "empty string is invalid, not unset" is expressible.
`data` is an optional JS object value. -/
structure RequestOptions where
  method : Option String := none
  endpoint : Option String := none
  api : Option String := none
  data : Option JsTree := none
  timeout : Option Nat := none
deriving Repr

/-- ResolvedCall handed to the transport collaborator. -/
structure ResolvedCall where
  url : String
  method : String
  data : Option JsTree
  headers : Option (List (String × String))
  timeout : Option Nat
deriving Repr

/-! ### Error constants

Codes, messages and type tags are the observable constants from the test
suite (part_000); the taxonomy is spec section 7. -/

namespace errors

def MISSING_GATEWAY_CONFIGURATION : BtError :=
  { errType := .internal, code := "CLIENT_MISSING_GATEWAY_CONFIGURATION",
    message := "Missing gatewayConfiguration." }

def GATEWAY_CONFIGURATION_INVALID_DOMAIN (message : String) : BtError :=
  { errType := .merchant, code := "CLIENT_GATEWAY_CONFIGURATION_INVALID_DOMAIN",
    message := message }

def OPTION_REQUIRED (message : String) : BtError :=
  { errType := .merchant, code := "CLIENT_OPTION_REQUIRED", message := message }

def OPTION_INVALID : BtError :=
  { errType := .merchant, code := "CLIENT_OPTION_INVALID",
    message := "options.api is invalid." }

def BRAINTREE_API_ACCESS_RESTRICTED : BtError :=
  { errType := .merchant, code := "BRAINTREE_API_ACCESS_RESTRICTED",
    message := "Your access is restricted and cannot use this part of the Braintree API." }

def AUTHORIZATION_INSUFFICIENT : BtError :=
  { errType := .merchant, code := "CLIENT_AUTHORIZATION_INSUFFICIENT",
    message := "The authorization used has insufficient privileges." }

def RATE_LIMITED : BtError :=
  { errType := .merchant, code := "CLIENT_RATE_LIMITED",
    message := "You are being rate-limited; please try again in a few minutes." }

def REQUEST_TIMEOUT : BtError :=
  { errType := .network, code := "CLIENT_REQUEST_TIMEOUT",
    message := "Request timed out waiting for a reply." }

def REQUEST_ERROR (originalError : JsTree) : BtError :=
  { errType := .network, code := "CLIENT_REQUEST_ERROR",
    message := "There was a problem with your request.",
    originalError := some originalError }

def GATEWAY_NETWORK : BtError :=
  { errType := .network, code := "CLIENT_GATEWAY_NETWORK",
    message := "Cannot contact the gateway at this time." }

end errors

/-! ### Metadata injection for legacy / clientApi requests

Modelled from the spec (4.2): "merge into `data` a library-version tag and
`_meta: {source, sessionId}`, where `source` defaults to `\"client\"`
unless the caller supplied `data._meta.source`, which takes precedence."
The merge produces a new object from the caller's fields; the caller's
value is untouched (the functions are pure). -/

/-- The `source` the caller supplied inside `data._meta`, when any. -/
def callerMetaSource (data : Option JsTree) : Option String :=
  match data with
  | some (.node fs) =>
      match lookupField fs "_meta" with
      | some (.node ms) =>
          match lookupField ms "source" with
          | some (.prim s) => some s
          | _ => none
      | _ => none
  | _ => none

/-- The field list of the caller's `data`, empty when `data` is absent or
not an object. -/
def callerFields (data : Option JsTree) : List (String × JsTree) :=
  match data with
  | some (.node fs) => fs
  | _ => []

/-- Merge the library-version tag and `_meta` into the caller's data,
producing the object sent on the legacy/clientApi surface. -/
def addMetadata (sessionId : String) (data : Option JsTree) : JsTree :=
  let src := (callerMetaSource data).getD "client"
  JsTree.node
    (setField
      (setField (callerFields data) "braintreeLibraryVersion"
        (.prim BRAINTREE_LIBRARY_VERSION))
      "_meta" (.node [("source", .prim src), ("sessionId", .prim sessionId)]))

/-! ### Request resolution (spec 4.2 / 4.4, modelled from the spec)

`Client.request` validates the descriptor and either fails through the
completion channel (never a thrown exception) or delegates a ResolvedCall
to the transport. -/

/-- Outcome of the pre-delegation phase of `request`: either a typed error
delivered to the completion handler with no data, or a ResolvedCall handed
to the transport. -/
inductive RequestOutcome where
  | failure : BtError → RequestOutcome
  | delegated : ResolvedCall → RequestOutcome
deriving Repr

/-- Modelled from the spec: `Client#request` of the Client implementation
(not in the repository slice; behaviour from spec 4.2/4.4 and the test
suite). Validation order: `method`, then `endpoint`, then `api`. The
legacy surface (api absent) and `"clientApi"` share base
`gatewayConfiguration.clientApiUrl` and path `/v1/<endpoint>` with merged
metadata and no headers; `"braintreeApi"` uses base
`gatewayConfiguration.braintreeApi.url`, path `/<endpoint>`, fixed
headers, and passes `data` through untouched; any other `api` string
(including `""`) is invalid. An absent `clientApiUrl` concatenates as the
string "undefined", mirroring JS string coercion. -/
def Client.request (cfg : ConfigurationSnapshot) (opts : RequestOptions) :
    RequestOutcome :=
  match opts.method with
  | none => .failure (errors.OPTION_REQUIRED "options.method is required when making a request.")
  | some method =>
    match opts.endpoint with
    | none => .failure (errors.OPTION_REQUIRED "options.endpoint is required when making a request.")
    | some endpoint =>
      let legacyCall : RequestOutcome :=
        .delegated
          { url := (cfg.gatewayConfiguration.clientApiUrl.getD "undefined") ++ "/v1/" ++ endpoint
            method := method
            data := some (addMetadata cfg.analyticsMetadata.sessionId opts.data)
            headers := none
            timeout := opts.timeout }
      match opts.api with
      | none => legacyCall
      | some a =>
          if a = "clientApi" then legacyCall
          else if a = "braintreeApi" then
            match cfg.gatewayConfiguration.braintreeApi with
            | none => .failure errors.BRAINTREE_API_ACCESS_RESTRICTED
            | some bt =>
                .delegated
                  { url := bt.url ++ "/" ++ endpoint
                    method := method
                    data := opts.data
                    headers := some
                      [("Braintree-Version", BRAINTREE_API_VERSION),
                       ("Authorization", "Bearer " ++ bt.accessToken)]
                    timeout := opts.timeout }
          else .failure errors.OPTION_INVALID

/-- The URL of the delegated call, when `request` delegates. -/
def Client.resolvedUrl (cfg : ConfigurationSnapshot) (opts : RequestOptions) :
    Option String :=
  match Client.request cfg opts with
  | .delegated call => some call.url
  | .failure _ => none

/-! ### Transport outcome classification (spec 4.3 / 4.4, modelled from
the spec) -/

/-- Modelled from the spec: the error classifier of the Client
implementation (not in the repository slice; behaviour from the spec 4.3
table and the test suite). Precedence: 403, 429, the timeout sentinel -1,
then the broad 400-499 and 500-599 ranges. A truthy raw error with a
status outside every table row is classified as a request-error (spec 7:
nothing is swallowed), preserving the raw error. -/
def classify (rawError : JsTree) (status : Int) : BtError :=
  if status = 403 then errors.AUTHORIZATION_INSUFFICIENT
  else if status = 429 then errors.RATE_LIMITED
  else if status = -1 then errors.REQUEST_TIMEOUT
  else if 400 ≤ status ∧ status ≤ 499 then errors.REQUEST_ERROR rawError
  else if 500 ≤ status ∧ status ≤ 599 then errors.GATEWAY_NETWORK
  else errors.REQUEST_ERROR rawError

/-- Modelled from the spec (4.4 step 5): on transport completion
`(rawError, body, status)`, the dispatcher invokes
`completion(typedErrorOrNull, rawError ? null : body, status)`. -/
def completeTransport (rawError : Option JsTree) (body : Option JsTree)
    (status : Int) : Option BtError × Option JsTree × Int :=
  match rawError with
  | some raw => (some (classify raw status), none, status)
  | none => (none, body, status)

/-! ### Trusted-domain validation and construction (spec 4.1, modelled
from the spec) -/

/-- Modelled from the spec: the explicit allowlist of trusted domains
(spec section 3, "an explicit allowlist of trusted domains"). The test
suite exhibits `braintreegateway.com` and `braintree-api.com` as allowed
and `example.com` as rejected. -/
def allowedDomains : List String :=
  ["braintreepayments.com", "braintreegateway.com", "braintree-api.com", "paypal.com"]

/-- Characters after the first `://`, when the string has one. -/
def afterScheme : List Char → Option (List Char)
  | ':' :: '/' :: '/' :: rest => some rest
  | _ :: rest => afterScheme rest
  | [] => none

/-- The host portion: characters up to the first `/` (path) or `:`
(port). -/
def takeHost : List Char → List Char
  | [] => []
  | c :: rest => if c = '/' ∨ c = ':' then [] else c :: takeHost rest

/-- Extract the host from a URL string: drop the scheme (up to `://`),
then cut at the first `/` (path) and `:` (port). -/
def hostOf (url : String) : String :=
  String.mk (takeHost ((afterScheme url.data).getD url.data))

/-- A host is trusted when it matches an allowed domain exactly or is a
subdomain of one (the host ends with `"." ++ domain`). -/
def isTrustedHost (host : String) : Bool :=
  allowedDomains.any (fun d =>
    host == d || List.isSuffixOf ("." ++ d).data host.data)

/-- A URL field passes domain validation when absent or on a trusted
host. -/
def urlOk : Option String → Bool
  | none => true
  | some u => isTrustedHost (hostOf u)

/-- Raw constructor input: `{ authorization, analyticsMetadata,
gatewayConfiguration }`. -/
structure ClientInput where
  authorization : String := ""
  analyticsMetadata : AnalyticsMetadata := {}
  gatewayConfiguration : Option GatewayConfiguration := none

/-- A constructed client. `getConfiguration` is held as a replaceable
function member (the test suite overwrites it at runtime), and `toJSON`
is defined below as a forwarding call through the current member. -/
structure ClientObj where
  getConfiguration : Unit → ConfigurationSnapshot

/-- `toJSON` forwards to whatever `getConfiguration` currently is. -/
def ClientObj.toJSON (c : ClientObj) : ConfigurationSnapshot :=
  c.getConfiguration ()

/-- Modelled from the spec: the Client constructor (not in the repository
slice; behaviour from spec 4.1 and the construction tests). Fails when
`gatewayConfiguration` is absent; then validates `assetsUrl`,
`clientApiUrl`, `configUrl` and `braintreeApi.url` in that order against
the trusted-domain allowlist; on success captures the snapshot behind the
`getConfiguration` accessor. -/
def constructClient (input : ClientInput) : Except BtError ClientObj :=
  match input.gatewayConfiguration with
  | none => .error errors.MISSING_GATEWAY_CONFIGURATION
  | some gw =>
    if urlOk gw.assetsUrl = false then
      .error (errors.GATEWAY_CONFIGURATION_INVALID_DOMAIN
        "assetsUrl property is on an invalid domain.")
    else if urlOk gw.clientApiUrl = false then
      .error (errors.GATEWAY_CONFIGURATION_INVALID_DOMAIN
        "clientApiUrl property is on an invalid domain.")
    else if urlOk gw.configUrl = false then
      .error (errors.GATEWAY_CONFIGURATION_INVALID_DOMAIN
        "configUrl property is on an invalid domain.")
    else if urlOk (gw.braintreeApi.map (fun b => b.url)) = false then
      .error (errors.GATEWAY_CONFIGURATION_INVALID_DOMAIN
        "braintreeApi URL is on an invalid domain.")
    else
      .ok { getConfiguration := fun _ =>
              { authorization := input.authorization
                analyticsMetadata := input.analyticsMetadata
                gatewayConfiguration := gw } }

/-! ### Configuration-fetch collaborator

Translated from `get-configuration.js` (src/unnamed/part_001). The
authorization parser (`createAuthorizationData`, a separate lib module)
and the transport (`request`) are collaborators, passed as functions; a
parser result of `none` models the parser throwing. The error constants
come from the missing `client/errors.js` module; the gateway-network one
is fixed by spec section 6 (`{type: NETWORK, code: GATEWAY_NETWORK}`
wrapping the underlying cause). -/

/-- Result of `createAuthorizationData`: request attributes plus the
configuration URL to query. -/
structure AuthData where
  attrs : List (String × JsTree)
  configUrl : String

/-- The request descriptor `get-configuration.js` hands to its transport:
`{url: configUrl, method: 'GET', data: attrs}`. -/
structure FetchRequest where
  url : String
  method : String
  data : JsTree

/-- The configuration object delivered on fetch success:
`{authorization, analyticsMetadata, gatewayConfiguration: response}`. -/
structure FetchedConfiguration where
  authorization : String
  analyticsMetadata : JsTree
  gatewayConfiguration : JsTree

/-- What `getConfiguration` (the fetch collaborator) did: whether a
network request was issued, and the `(err, configuration)` pair passed to
the callback. -/
structure FetchResult where
  issuedRequest : Option FetchRequest
  callbackError : Option BtError
  callbackConfiguration : Option FetchedConfiguration

/-- Modelled from the spec: `errors.INVALID_AUTHORIZATION` of the missing
`client/errors.js` module (an invalid-authorization merchant error; the
claims only need it to be a fixed error distinct from the gateway-network
one). -/
def INVALID_AUTHORIZATION : BtError :=
  { errType := .merchant, code := "CLIENT_INVALID_AUTHORIZATION",
    message := "Authorization is invalid. Make sure your client token or tokenization key is valid." }

/-- The request `get-configuration.js` issues: a GET against the parsed
configUrl whose data is the parsed attrs with `_meta` set to the analytics
metadata and `braintreeLibraryVersion` set to the library version. -/
def fetchRequestOf (authData : AuthData) (analyticsMetadata : JsTree) : FetchRequest :=
  { url := authData.configUrl
    method := "GET"
    data := .node (setField (setField authData.attrs "_meta" analyticsMetadata)
      "braintreeLibraryVersion" (.prim BRAINTREE_LIBRARY_VERSION)) }

/-- `getConfiguration` from `get-configuration.js`: parse the
authorization (callback with an invalid-authorization error and no
request when the parser throws); otherwise inject `_meta` and the library
version into the parsed attrs, issue a GET against the parsed configUrl,
and deliver either a gateway-network error wrapping the transport failure
or the assembled configuration. -/
def getConfigurationFetch
    (createAuthorizationData : String → Option AuthData)
    (transport : FetchRequest → Except JsTree JsTree)
    (analyticsMetadata : JsTree) (authorization : String) : FetchResult :=
  match createAuthorizationData authorization with
  | none =>
      { issuedRequest := none
        callbackError := some INVALID_AUTHORIZATION
        callbackConfiguration := none }
  | some authData =>
      let req : FetchRequest := fetchRequestOf authData analyticsMetadata
      match transport req with
      | .error e =>
          { issuedRequest := some req
            callbackError := some { errors.GATEWAY_NETWORK with originalError := some e }
            callbackConfiguration := none }
      | .ok response =>
          { issuedRequest := some req
            callbackError := none
            callbackConfiguration := some
              { authorization := authorization
                analyticsMetadata := analyticsMetadata
                gatewayConfiguration := response } }

/-! ### Heap model for snapshot immutability

The immutability claim is about object mutation, so it needs a mutable
object store. A `World` is a heap of JS objects plus an allocation
counter. The stored configuration of a client is a pure tree (the source
idiom captures a JSON string at construction and re-parses it on every
read), so `getConfiguration` materialises a fresh deep copy into the heap
on each call; callers may then mutate heap objects at will. -/

/-- A JS reference: a primitive value or a pointer to a heap object. -/
inductive JsRef where
  | prim : String → JsRef
  | ref : Nat → JsRef
deriving DecidableEq, Repr

/-- A heap object: an ordered field list of references. -/
structure HeapObj where
  fields : List (String × JsRef)
deriving Repr

/-- A heap: an association list from addresses to objects. -/
abbrev Heap := List (Nat × HeapObj)

/-- Address lookup (first match wins). -/
def lookupHeap : Heap → Nat → Option HeapObj
  | [], _ => none
  | (a, o) :: rest, addr => if a = addr then some o else lookupHeap rest addr

/-- Set a field of a reference field list (overwrite or append). -/
def setFieldRef : List (String × JsRef) → String → JsRef → List (String × JsRef)
  | [], key, val => [(key, val)]
  | (k, v) :: rest, key, val =>
      if k = key then (key, val) :: rest else (k, v) :: setFieldRef rest key val

/-- Mutate field `key` of the object at `addr`, when such an object
exists (a JS property assignment `obj.key = val`). -/
def writeHeap (h : Heap) (addr : Nat) (key : String) (val : JsRef) : Heap :=
  h.map (fun e => if e.1 = addr then (e.1, ⟨setFieldRef e.2.fields key val⟩) else e)

mutual

/-- Allocate a deep copy of a tree into the heap, using addresses from
counter `n` upward; returns the extended heap, the new counter and the
root reference. -/
def allocTree : JsTree → Heap → Nat → Heap × Nat × JsRef
  | .prim s, h, n => (h, n, .prim s)
  | .node fs, h, n =>
      let r := allocFields fs h n
      ((r.2.1, ⟨r.2.2⟩) :: r.1, r.2.1 + 1, .ref r.2.1)

/-- Field-list companion of `allocTree`. -/
def allocFields : List (String × JsTree) → Heap → Nat → Heap × Nat × List (String × JsRef)
  | [], h, n => (h, n, [])
  | (k, t) :: rest, h, n =>
      let r1 := allocTree t h n
      let r2 := allocFields rest r1.1 r1.2.1
      (r2.1, r2.2.1, (k, r1.2.2) :: r2.2.2)

end

mutual

/-- Height of a tree: fuel needed to read a copy of it back from a
heap. -/
def heightT : JsTree → Nat
  | .prim _ => 0
  | .node fs => heightF fs + 1

/-- Height of a field list. -/
def heightF : List (String × JsTree) → Nat
  | [] => 0
  | (_, t) :: rest => max (heightT t) (heightF rest)

end

mutual

/-- Read the value tree rooted at a reference out of the heap,
fuel-bounded (the heap may be cyclic after arbitrary mutations). -/
def deepRead (h : Heap) (fuel : Nat) (r : JsRef) : Option JsTree :=
  match fuel, r with
  | _, .prim s => some (.prim s)
  | 0, .ref _ => none
  | Nat.succ f, .ref a =>
      (lookupHeap h a).bind (fun o => (readFields h f o.fields).map JsTree.node)
termination_by (fuel, 0)

/-- Field-list companion of `deepRead`. -/
def readFields (h : Heap) (fuel : Nat) (frs : List (String × JsRef)) :
    Option (List (String × JsTree)) :=
  match frs with
  | [] => some []
  | (k, r) :: rest =>
      (deepRead h fuel r).bind (fun t =>
        (readFields h fuel rest).map (fun ts => (k, t) :: ts))
termination_by (fuel, frs.length + 1)

end

/-- A mutable world: heap plus allocation counter. -/
structure World where
  heap : Heap
  next : Nat

/-- Well-formedness: every allocated address is below the counter. -/
def World.wf (w : World) : Prop := ∀ p ∈ w.heap, p.1 < w.next

/-- A single field-write mutation a caller can perform on objects it has
references to. -/
structure Mutation where
  addr : Nat
  key : String
  val : JsRef

/-- Apply one mutation to the world. -/
def applyMutation (w : World) (m : Mutation) : World :=
  { w with heap := writeHeap w.heap m.addr m.key m.val }

/-- Apply a sequence of mutations. -/
def applyMutations (w : World) (ms : List Mutation) : World :=
  ms.foldl applyMutation w

/-- Modelled from the spec: the copy-on-read `getConfiguration` accessor
(spec 4.1: "repeated calls return logically equal but
independently-mutable-safe results"); each call materialises a fresh deep
copy of the stored configuration tree into the world. -/
def getConfigurationAlloc (stored : JsTree) (w : World) : World × JsRef :=
  let r := allocTree stored w.heap w.next
  ({ heap := r.1, next := r.2.1 }, r.2.2)

/-! ### The test suite's fake configuration

Model of `fake.configuration()` from the repository's test helpers,
restricted to the fields the core reads. -/

def fakeGatewayConfiguration : GatewayConfiguration :=
  { configUrl := some "https://braintreegateway.com/config"
    clientApiUrl := some "https://braintreegateway.com"
    braintreeApi := some { url := "https://example.braintree-api.com"
                           accessToken := "fakeToken" } }

def fakeConfiguration : ConfigurationSnapshot :=
  { authorization := "development_testing_merchant_id"
    analyticsMetadata := { merchantAppId := "http://fakeDomain.com"
                           sessionId := "fakeSessionId" }
    gatewayConfiguration := fakeGatewayConfiguration }

/-! ## Shared lemmas -/

theorem lookupField_setField_same (fs : List (String × JsTree)) (k : String)
    (v : JsTree) : lookupField (setField fs k v) k = some v := by
  induction fs with
  | nil => simp [setField, lookupField]
  | cons p rest ih =>
    by_cases hk : p.1 = k
    · simp [setField, hk, lookupField]
    · simp [setField, hk, lookupField, ih]

theorem lookupField_setField_other (fs : List (String × JsTree)) (k k2 : String)
    (v : JsTree) (hne : k ≠ k2) :
    lookupField (setField fs k v) k2 = lookupField fs k2 := by
  induction fs with
  | nil => simp [setField, lookupField, hne]
  | cons p rest ih =>
    by_cases hk : p.1 = k
    · simp [setField, hk, lookupField, hne]
    · simp only [setField, hk, if_false, lookupField]
      by_cases hk2 : p.1 = k2
      · simp [hk2]
      · simp [hk2, ih]

theorem lookupHeap_mem (h : Heap) (a : Nat) (o : HeapObj)
    (hl : lookupHeap h a = some o) : (a, o) ∈ h := by
  induction h with
  | nil => simp [lookupHeap] at hl
  | cons p rest ih =>
    by_cases hp : p.1 = a
    · simp only [lookupHeap] at hl
      rw [if_pos hp] at hl
      have hpe : p = (a, o) := by
        cases p
        simp_all
      rw [← hpe]
      exact List.mem_cons_self _ _
    · simp only [lookupHeap] at hl
      rw [if_neg hp] at hl
      exact List.mem_cons_of_mem _ (ih hl)

theorem writeHeap_keys (h : Heap) (addr : Nat) (key : String) (val : JsRef)
    (p : Nat × HeapObj) (hp : p ∈ writeHeap h addr key val) :
    ∃ q ∈ h, p.1 = q.1 := by
  simp only [writeHeap, List.mem_map] at hp
  obtain ⟨q, hq, he⟩ := hp
  refine ⟨q, hq, ?_⟩
  by_cases h1 : q.1 = addr <;> simp [h1] at he <;> simp [← he, h1]

theorem applyMutation_wf (w : World) (m : Mutation) (hw : w.wf) :
    (applyMutation w m).wf := by
  intro p hp
  obtain ⟨q, hq, he⟩ := writeHeap_keys w.heap m.addr m.key m.val p hp
  simpa [applyMutation, he] using hw q hq

theorem applyMutations_wf (w : World) (ms : List Mutation) (hw : w.wf) :
    (applyMutations w ms).wf := by
  induction ms generalizing w with
  | nil => simpa [applyMutations] using hw
  | cons m rest ih =>
    simpa [applyMutations] using ih (applyMutation w m) (applyMutation_wf w m hw)

mutual

theorem deepRead_mono (h : Heap) (f f2 : Nat) (r : JsRef) (t : JsTree)
    (hle : f ≤ f2) (hr : deepRead h f r = some t) : deepRead h f2 r = some t := by
  cases r with
  | prim s =>
    simpa [deepRead] using hr
  | ref a =>
    cases f with
    | zero => simp [deepRead] at hr
    | succ f1 =>
      cases f2 with
      | zero => exact absurd hle (by omega)
      | succ f3 =>
        simp only [deepRead] at hr ⊢
        cases hlk : lookupHeap h a with
        | none => rw [hlk] at hr; simp at hr
        | some o =>
          rw [hlk] at hr
          simp only [Option.some_bind] at hr ⊢
          obtain ⟨fs, hfs, hnode⟩ := Option.map_eq_some'.mp hr
          rw [readFields_mono h f1 f3 o.fields fs (by omega) hfs]
          simp [hnode]
termination_by (f, 0)

theorem readFields_mono (h : Heap) (f f2 : Nat) (frs : List (String × JsRef))
    (ts : List (String × JsTree)) (hle : f ≤ f2)
    (hr : readFields h f frs = some ts) : readFields h f2 frs = some ts := by
  cases frs with
  | nil => simpa [readFields] using hr
  | cons p rest =>
    obtain ⟨k, r⟩ := p
    simp only [readFields] at hr ⊢
    cases hd : deepRead h f r with
    | none => rw [hd] at hr; simp at hr
    | some t1 =>
      rw [hd] at hr
      simp only [Option.some_bind] at hr
      obtain ⟨ts1, hts1, hcons⟩ := Option.map_eq_some'.mp hr
      rw [deepRead_mono h f f2 r t1 hle hd]
      simp only [Option.some_bind]
      rw [readFields_mono h f f2 rest ts1 hle hts1]
      simp [hcons]
termination_by (f, frs.length + 1)

end

mutual

theorem deepRead_stable (h h2 : Heap) (f : Nat) (r : JsRef) (t : JsTree)
    (hag : ∀ a o, lookupHeap h a = some o → lookupHeap h2 a = some o)
    (hr : deepRead h f r = some t) : deepRead h2 f r = some t := by
  cases r with
  | prim s => simpa [deepRead] using hr
  | ref a =>
    cases f with
    | zero => simp [deepRead] at hr
    | succ f1 =>
      simp only [deepRead] at hr ⊢
      cases hlk : lookupHeap h a with
      | none => rw [hlk] at hr; simp at hr
      | some o =>
        rw [hlk] at hr
        rw [hag a o hlk]
        simp only [Option.some_bind] at hr ⊢
        obtain ⟨fs, hfs, hnode⟩ := Option.map_eq_some'.mp hr
        rw [readFields_stable h h2 f1 o.fields fs hag hfs]
        simp [hnode]
termination_by (f, 0)

theorem readFields_stable (h h2 : Heap) (f : Nat) (frs : List (String × JsRef))
    (ts : List (String × JsTree))
    (hag : ∀ a o, lookupHeap h a = some o → lookupHeap h2 a = some o)
    (hr : readFields h f frs = some ts) : readFields h2 f frs = some ts := by
  cases frs with
  | nil => simpa [readFields] using hr
  | cons p rest =>
    obtain ⟨k, r⟩ := p
    simp only [readFields] at hr ⊢
    cases hd : deepRead h f r with
    | none => rw [hd] at hr; simp at hr
    | some t1 =>
      rw [hd] at hr
      simp only [Option.some_bind] at hr
      obtain ⟨ts1, hts1, hcons⟩ := Option.map_eq_some'.mp hr
      rw [deepRead_stable h h2 f r t1 hag hd]
      simp only [Option.some_bind]
      rw [readFields_stable h h2 f rest ts1 hag hts1]
      simp [hcons]
termination_by (f, frs.length + 1)

end

theorem allocTree_prim (s : String) (h : Heap) (n : Nat) :
    allocTree (.prim s) h n = (h, n, .prim s) := by
  simp [allocTree]

theorem allocTree_node (fs : List (String × JsTree)) (h : Heap) (n : Nat) :
    allocTree (.node fs) h n =
      (((allocFields fs h n).2.1, ⟨(allocFields fs h n).2.2⟩) :: (allocFields fs h n).1,
        (allocFields fs h n).2.1 + 1, .ref (allocFields fs h n).2.1) := by
  simp [allocTree]

theorem allocFields_nil (h : Heap) (n : Nat) : allocFields [] h n = (h, n, []) := by
  simp [allocFields]

theorem allocFields_cons (k : String) (t : JsTree) (rest : List (String × JsTree))
    (h : Heap) (n : Nat) :
    allocFields ((k, t) :: rest) h n =
      ((allocFields rest (allocTree t h n).1 (allocTree t h n).2.1).1,
       (allocFields rest (allocTree t h n).1 (allocTree t h n).2.1).2.1,
       (k, (allocTree t h n).2.2) ::
         (allocFields rest (allocTree t h n).1 (allocTree t h n).2.1).2.2) := by
  simp [allocFields]

mutual

theorem allocTree_spec (t : JsTree) (h : Heap) (n : Nat)
    (hwf : ∀ p ∈ h, p.1 < n) :
    n ≤ (allocTree t h n).2.1 ∧
    (∀ p ∈ (allocTree t h n).1, p.1 < (allocTree t h n).2.1) ∧
    (∀ a, a < n → lookupHeap (allocTree t h n).1 a = lookupHeap h a) ∧
    deepRead (allocTree t h n).1 (heightT t) (allocTree t h n).2.2 = some t := by
  cases t with
  | prim s =>
    rw [allocTree_prim]
    exact ⟨le_refl n, hwf, fun a _ => rfl, by simp [deepRead, heightT]⟩
  | node fs =>
    have hf := allocFields_spec fs h n hwf
    rw [allocTree_node]
    generalize hE : allocFields fs h n = R at hf ⊢
    obtain ⟨h1, n1, frs⟩ := R
    dsimp only at hf ⊢
    obtain ⟨hle, hdom, hpres, hread⟩ := hf
    have hag : ∀ a o, lookupHeap h1 a = some o →
        lookupHeap ((n1, HeapObj.mk frs) :: h1) a = some o := by
      intro a o hl
      have ha := hdom _ (lookupHeap_mem h1 a o hl)
      simp only [lookupHeap]
      rw [if_neg (by omega : ¬ n1 = a)]
      exact hl
    refine ⟨by omega, ?_, ?_, ?_⟩
    · intro p hp
      rcases List.mem_cons.mp hp with he | hm
      · simp [he]
      · have := hdom p hm
        omega
    · intro a ha
      simp only [lookupHeap]
      rw [if_neg (by omega : ¬ n1 = a)]
      exact hpres a ha
    · have hlk : lookupHeap ((n1, HeapObj.mk frs) :: h1) n1 = some ⟨frs⟩ := by
        simp [lookupHeap]
      simp only [heightT, deepRead, hlk, Option.some_bind]
      rw [readFields_stable h1 _ (heightF fs) frs fs hag hread]
      rfl

theorem allocFields_spec (fs : List (String × JsTree)) (h : Heap) (n : Nat)
    (hwf : ∀ p ∈ h, p.1 < n) :
    n ≤ (allocFields fs h n).2.1 ∧
    (∀ p ∈ (allocFields fs h n).1, p.1 < (allocFields fs h n).2.1) ∧
    (∀ a, a < n → lookupHeap (allocFields fs h n).1 a = lookupHeap h a) ∧
    readFields (allocFields fs h n).1 (heightF fs) (allocFields fs h n).2.2 = some fs := by
  cases fs with
  | nil =>
    rw [allocFields_nil]
    exact ⟨le_refl n, hwf, fun a _ => rfl, by simp [readFields]⟩
  | cons p rest =>
    obtain ⟨k, t⟩ := p
    have hts := allocTree_spec t h n hwf
    rw [allocFields_cons]
    generalize hA : allocTree t h n = A at hts ⊢
    obtain ⟨h1, n1, r1⟩ := A
    dsimp only at hts ⊢
    obtain ⟨hle1, hdom1, hpres1, hread1⟩ := hts
    have hfs := allocFields_spec rest h1 n1 hdom1
    generalize hB : allocFields rest h1 n1 = B at hfs ⊢
    obtain ⟨h2, n2, rs⟩ := B
    dsimp only at hfs ⊢
    obtain ⟨hle2, hdom2, hpres2, hread2⟩ := hfs
    have hag : ∀ a o, lookupHeap h1 a = some o → lookupHeap h2 a = some o := by
      intro a o hl
      have ha := hdom1 _ (lookupHeap_mem h1 a o hl)
      rw [hpres2 a ha]
      exact hl
    have hh : heightF ((k, t) :: rest) = max (heightT t) (heightF rest) := by
      simp [heightF]
    refine ⟨by omega, hdom2, ?_, ?_⟩
    · intro a ha
      rw [hpres2 a (by omega), hpres1 a ha]
    · have hr1 : deepRead h2 (heightF ((k, t) :: rest)) r1 = some t := by
        refine deepRead_mono h2 (heightT t) _ r1 t ?_
          (deepRead_stable h1 h2 (heightT t) r1 t hag hread1)
        rw [hh]
        exact le_max_left _ _
      have hr2 : readFields h2 (heightF ((k, t) :: rest)) rs = some rest := by
        refine readFields_mono h2 (heightF rest) _ rs rest ?_ hread2
        rw [hh]
        exact le_max_right _ _
      simp only [readFields, hr1, Option.some_bind, hr2]
      rfl

end

/-! ## Claim theorems -/

/-- C1: for every request descriptor with method and endpoint present, if
`api` is absent or `"clientApi"` the resolved URL is
`gatewayConfiguration.clientApiUrl ++ "/v1/" ++ endpoint`; if `api` is
`"braintreeApi"` (and the surface is provisioned) it is
`gatewayConfiguration.braintreeApi.url ++ "/" ++ endpoint`, with no
version segment. -/
theorem request_url_resolution (cfg : ConfigurationSnapshot)
    (opts : RequestOptions) (m ep : String)
    (hm : opts.method = some m) (he : opts.endpoint = some ep) :
    ((opts.api = none ∨ opts.api = some "clientApi") →
      ∀ base, cfg.gatewayConfiguration.clientApiUrl = some base →
        Client.resolvedUrl cfg opts = some (base ++ "/v1/" ++ ep)) ∧
    (opts.api = some "braintreeApi" →
      ∀ bt, cfg.gatewayConfiguration.braintreeApi = some bt →
        Client.resolvedUrl cfg opts = some (bt.url ++ "/" ++ ep)) := by
  constructor
  · rintro (ha | ha) base hb <;>
      simp [Client.resolvedUrl, Client.request, hm, he, ha, hb]
  · rintro ha bt hb
    simp [Client.resolvedUrl, Client.request, hm, he, ha, hb]

/-- C1 witness: the fake configuration resolves the three test URLs. -/
theorem request_url_resolution_witness :
    Client.resolvedUrl fakeConfiguration
        { method := some "get", endpoint := some "payment_methods" }
      = some "https://braintreegateway.com/v1/payment_methods" ∧
    Client.resolvedUrl fakeConfiguration
        { method := some "post", endpoint := some "payment_methods", api := some "clientApi" }
      = some "https://braintreegateway.com/v1/payment_methods" ∧
    Client.resolvedUrl fakeConfiguration
        { method := some "get", endpoint := some "status", api := some "braintreeApi" }
      = some "https://example.braintree-api.com/status" :=
  ⟨(request_url_resolution fakeConfiguration _ "get" "payment_methods" rfl rfl).1
      (Or.inl rfl) "https://braintreegateway.com" rfl,
   (request_url_resolution fakeConfiguration _ "post" "payment_methods" rfl rfl).1
      (Or.inr rfl) "https://braintreegateway.com" rfl,
   (request_url_resolution fakeConfiguration _ "get" "status" rfl rfl).2
      rfl { url := "https://example.braintree-api.com", accessToken := "fakeToken" } rfl⟩

/-- C4: for every braintreeApi request on a provisioned configuration,
the delegated call carries exactly the `Braintree-Version` and
`Authorization: Bearer <accessToken>` headers, and its data is the
caller's `data` passed through unmodified (the dispatcher is a pure
function of the descriptor, so pass-through of the value models the
same-object-identity guarantee; no library-version tag or `_meta` is
injected). -/
theorem request_braintreeApi_call (cfg : ConfigurationSnapshot)
    (opts : RequestOptions) (m ep : String) (bt : BraintreeApiConfig)
    (hm : opts.method = some m) (he : opts.endpoint = some ep)
    (ha : opts.api = some "braintreeApi")
    (hb : cfg.gatewayConfiguration.braintreeApi = some bt) :
    Client.request cfg opts = .delegated
      { url := bt.url ++ "/" ++ ep
        method := m
        data := opts.data
        headers := some
          [("Braintree-Version", BRAINTREE_API_VERSION),
           ("Authorization", "Bearer " ++ bt.accessToken)]
        timeout := opts.timeout } := by
  simp [Client.request, hm, he, ha, hb]

/-- C4 witness: the header/pass-through test case on the fake
configuration. -/
theorem request_braintreeApi_call_witness :
    Client.request fakeConfiguration
        { method := some "get", endpoint := some "tokens",
          api := some "braintreeApi", data := some (.node [("foo", .prim "boo")]) }
      = .delegated
          { url := "https://example.braintree-api.com/tokens"
            method := "get"
            data := some (.node [("foo", .prim "boo")])
            headers := some
              [("Braintree-Version", "2016-10-07"),
               ("Authorization", "Bearer fakeToken")]
            timeout := none } :=
  request_braintreeApi_call fakeConfiguration _ "get" "tokens"
    { url := "https://example.braintree-api.com", accessToken := "fakeToken" }
    rfl rfl rfl rfl

/-- C5: for every legacy or clientApi request, the delegated data is a
new merged object (built by the pure merge `addMetadata`, so the caller's
`data` value is untouched) containing the library-version tag and `_meta`
with the snapshot's sessionId and a source that defaults to `"client"`
unless the caller supplied `data._meta.source`, which takes precedence. -/
theorem request_legacy_metadata (cfg : ConfigurationSnapshot)
    (opts : RequestOptions) (m ep : String)
    (hm : opts.method = some m) (he : opts.endpoint = some ep)
    (ha : opts.api = none ∨ opts.api = some "clientApi") :
    ∃ fields, Client.request cfg opts = .delegated
        { url := (cfg.gatewayConfiguration.clientApiUrl.getD "undefined") ++ "/v1/" ++ ep
          method := m
          data := some (JsTree.node fields)
          headers := none
          timeout := opts.timeout } ∧
      lookupField fields "braintreeLibraryVersion"
        = some (.prim BRAINTREE_LIBRARY_VERSION) ∧
      lookupField fields "_meta" = some (.node
        [("source", .prim ((callerMetaSource opts.data).getD "client")),
         ("sessionId", .prim cfg.analyticsMetadata.sessionId)]) := by
  refine ⟨setField
      (setField (callerFields opts.data) "braintreeLibraryVersion"
        (.prim BRAINTREE_LIBRARY_VERSION))
      "_meta" (.node [("source", .prim ((callerMetaSource opts.data).getD "client")),
                      ("sessionId", .prim cfg.analyticsMetadata.sessionId)]),
    ?_, ?_, ?_⟩
  · rcases ha with ha | ha <;>
      simp [Client.request, hm, he, ha, addMetadata]
  · rw [lookupField_setField_other _ _ _ _ (by decide)]
    exact lookupField_setField_same _ _ _
  · exact lookupField_setField_same _ _ _

/-- C5 witness: a legacy request with a caller-supplied `_meta.source`
yields the merged data with the override and the sessionId; a request
without one defaults the source to "client". -/
theorem request_legacy_metadata_witness :
    (∃ fields, Client.request fakeConfiguration
        { method := some "post", endpoint := some "payment_methods",
          data := some (.node [("_meta", .node [("source", .prim "custom source")])]) }
      = .delegated
          { url := "https://braintreegateway.com/v1/payment_methods"
            method := "post"
            data := some (JsTree.node fields)
            headers := none
            timeout := none } ∧
      lookupField fields "braintreeLibraryVersion"
        = some (.prim BRAINTREE_LIBRARY_VERSION) ∧
      lookupField fields "_meta" = some (.node
        [("source", .prim "custom source"), ("sessionId", .prim "fakeSessionId")])) ∧
    (∃ fields, Client.request fakeConfiguration
        { method := some "get", endpoint := some "payment_methods" }
      = .delegated
          { url := "https://braintreegateway.com/v1/payment_methods"
            method := "get"
            data := some (JsTree.node fields)
            headers := none
            timeout := none } ∧
      lookupField fields "braintreeLibraryVersion"
        = some (.prim BRAINTREE_LIBRARY_VERSION) ∧
      lookupField fields "_meta" = some (.node
        [("source", .prim "client"), ("sessionId", .prim "fakeSessionId")])) :=
  ⟨request_legacy_metadata fakeConfiguration _ "post" "payment_methods" rfl rfl (Or.inl rfl),
   request_legacy_metadata fakeConfiguration _ "get" "payment_methods" rfl rfl (Or.inl rfl)⟩

/-- C6: a descriptor missing `method` (checked first), missing
`endpoint`, or carrying an `api` string other than `"clientApi"` or
`"braintreeApi"` (the empty string included) makes `request` deliver an
option-required error naming the missing option, or the option-invalid
error for `api`, through the completion channel (`RequestOutcome.failure`,
which carries no data and is a returned value, never a thrown
exception). -/
theorem request_misuse_errors (cfg : ConfigurationSnapshot)
    (opts : RequestOptions) :
    (opts.method = none →
      Client.request cfg opts = .failure
        (errors.OPTION_REQUIRED "options.method is required when making a request.")) ∧
    (∀ m, opts.method = some m → opts.endpoint = none →
      Client.request cfg opts = .failure
        (errors.OPTION_REQUIRED "options.endpoint is required when making a request.")) ∧
    (∀ m ep a, opts.method = some m → opts.endpoint = some ep →
      opts.api = some a → a ≠ "clientApi" → a ≠ "braintreeApi" →
      Client.request cfg opts = .failure errors.OPTION_INVALID) := by
  refine ⟨?_, ?_, ?_⟩
  · intro h
    simp [Client.request, h]
  · intro m hm hee
    simp [Client.request, hm, hee]
  · intro m ep a hm hee ha h1 h2
    simp [Client.request, hm, hee, ha, h1, h2]

/-- C6 witness: the three validation failures of the test suite, with the
empty-string `api` boundary case. -/
theorem request_misuse_errors_witness :
    Client.request fakeConfiguration { endpoint := some "payment_methods" }
      = .failure (errors.OPTION_REQUIRED "options.method is required when making a request.") ∧
    Client.request fakeConfiguration { method := some "get" }
      = .failure (errors.OPTION_REQUIRED "options.endpoint is required when making a request.") ∧
    Client.request fakeConfiguration
        { method := some "get", endpoint := some "foo", api := some "garbage" }
      = .failure errors.OPTION_INVALID ∧
    Client.request fakeConfiguration
        { method := some "get", endpoint := some "foo", api := some "" }
      = .failure errors.OPTION_INVALID :=
  ⟨(request_misuse_errors fakeConfiguration _).1 rfl,
   (request_misuse_errors fakeConfiguration _).2.1 "get" rfl rfl,
   (request_misuse_errors fakeConfiguration _).2.2 "get" "foo" "garbage" rfl rfl rfl
     (by decide) (by decide),
   (request_misuse_errors fakeConfiguration _).2.2 "get" "foo" "" rfl rfl rfl
     (by decide) (by decide)⟩

/-- C7: a braintreeApi request on a configuration without a braintreeApi
object makes `request` deliver the access-restricted error (a merchant
typed error, the spec's authorization classification) through the
completion channel with no data, never a thrown exception. -/
theorem request_braintreeApi_restricted (cfg : ConfigurationSnapshot)
    (opts : RequestOptions) (m ep : String)
    (hm : opts.method = some m) (he : opts.endpoint = some ep)
    (ha : opts.api = some "braintreeApi")
    (hb : cfg.gatewayConfiguration.braintreeApi = none) :
    Client.request cfg opts = .failure errors.BRAINTREE_API_ACCESS_RESTRICTED := by
  simp [Client.request, hm, he, ha, hb]

/-- C7 witness: the fake configuration with braintreeApi deleted. -/
theorem request_braintreeApi_restricted_witness :
    Client.request
        { fakeConfiguration with gatewayConfiguration :=
            { fakeGatewayConfiguration with braintreeApi := none } }
        { method := some "get", endpoint := some "foo", api := some "braintreeApi" }
      = .failure errors.BRAINTREE_API_ACCESS_RESTRICTED :=
  request_braintreeApi_restricted _ _ "get" "foo" rfl rfl rfl rfl

/-- C2: for every transport outcome with a truthy raw error, the
completion receives exactly one classified error — 403 →
authorization-insufficient, 429 → rate-limited, -1 → request-timeout,
other 400-499 → request-error preserving the raw error as
`details.originalError`, 500-599 → gateway-network — with the specific
statuses taking precedence over the ranges, and a null data argument. -/
theorem transport_error_classification (raw : JsTree) (body : Option JsTree)
    (status : Int) :
    (status = 403 → completeTransport (some raw) body status =
      (some errors.AUTHORIZATION_INSUFFICIENT, none, status)) ∧
    (status = 429 → completeTransport (some raw) body status =
      (some errors.RATE_LIMITED, none, status)) ∧
    (status = -1 → completeTransport (some raw) body status =
      (some errors.REQUEST_TIMEOUT, none, status)) ∧
    (400 ≤ status → status ≤ 499 → status ≠ 403 → status ≠ 429 →
      completeTransport (some raw) body status =
        (some (errors.REQUEST_ERROR raw), none, status) ∧
      (errors.REQUEST_ERROR raw).originalError = some raw) ∧
    (500 ≤ status → status ≤ 599 →
      completeTransport (some raw) body status =
        (some errors.GATEWAY_NETWORK, none, status)) := by
  refine ⟨?_, ?_, ?_, ?_, ?_⟩
  · intro h
    subst h
    rfl
  · intro h
    subst h
    rfl
  · intro h
    subst h
    rfl
  · intro h1 h2 h3 h4
    refine ⟨?_, rfl⟩
    simp only [completeTransport, classify]
    rw [if_neg h3, if_neg h4, if_neg (by omega : ¬ status = -1),
      if_pos (⟨h1, h2⟩ : 400 ≤ status ∧ status ≤ 499)]
  · intro h1 h2
    simp only [completeTransport, classify]
    rw [if_neg (by omega : ¬ status = 403), if_neg (by omega : ¬ status = 429),
      if_neg (by omega : ¬ status = -1),
      if_neg (by omega : ¬ (400 ≤ status ∧ status ≤ 499)),
      if_pos (⟨h1, h2⟩ : 500 ≤ status ∧ status ≤ 599)]

/-- C2 witness: the five classification test cases of the suite. -/
theorem transport_error_classification_witness :
    completeTransport (some (.prim "error")) none 403
      = (some errors.AUTHORIZATION_INSUFFICIENT, none, 403) ∧
    completeTransport (some (.prim "error")) none 429
      = (some errors.RATE_LIMITED, none, 429) ∧
    completeTransport (some (.prim "timeout")) none (-1)
      = (some errors.REQUEST_TIMEOUT, none, -1) ∧
    completeTransport (some (.node [("error", .prim "message")])) none 422
      = (some (errors.REQUEST_ERROR (.node [("error", .prim "message")])), none, 422) ∧
    completeTransport (some (.prim "This is a network error message")) none 500
      = (some errors.GATEWAY_NETWORK, none, 500) :=
  ⟨(transport_error_classification (.prim "error") none 403).1 rfl,
   (transport_error_classification (.prim "error") none 429).2.1 rfl,
   (transport_error_classification (.prim "timeout") none (-1)).2.2.1 rfl,
   ((transport_error_classification (.node [("error", .prim "message")]) none 422).2.2.2.1
     (by decide) (by decide) (by decide) (by decide)).1,
   (transport_error_classification (.prim "This is a network error message") none 500).2.2.2.2
     (by decide) (by decide)⟩

/-- C8: construction fails synchronously with an invalid-domain error
naming the offending field whenever `assetsUrl`, `clientApiUrl`,
`configUrl` or `braintreeApi.url` is present with an untrusted host
(checked in that order), and any untrusted field among the four forces a
construction error of the invalid-domain code. -/
theorem construction_invalid_domain (input : ClientInput)
    (gw : GatewayConfiguration) (hgw : input.gatewayConfiguration = some gw) :
    (∀ u, gw.assetsUrl = some u → isTrustedHost (hostOf u) = false →
      constructClient input = .error (errors.GATEWAY_CONFIGURATION_INVALID_DOMAIN
        "assetsUrl property is on an invalid domain.")) ∧
    (urlOk gw.assetsUrl = true →
      ∀ u, gw.clientApiUrl = some u → isTrustedHost (hostOf u) = false →
      constructClient input = .error (errors.GATEWAY_CONFIGURATION_INVALID_DOMAIN
        "clientApiUrl property is on an invalid domain.")) ∧
    (urlOk gw.assetsUrl = true → urlOk gw.clientApiUrl = true →
      ∀ u, gw.configUrl = some u → isTrustedHost (hostOf u) = false →
      constructClient input = .error (errors.GATEWAY_CONFIGURATION_INVALID_DOMAIN
        "configUrl property is on an invalid domain.")) ∧
    (urlOk gw.assetsUrl = true → urlOk gw.clientApiUrl = true →
      urlOk gw.configUrl = true →
      ∀ bt, gw.braintreeApi = some bt → isTrustedHost (hostOf bt.url) = false →
      constructClient input = .error (errors.GATEWAY_CONFIGURATION_INVALID_DOMAIN
        "braintreeApi URL is on an invalid domain.")) ∧
    ((urlOk gw.assetsUrl = false ∨ urlOk gw.clientApiUrl = false ∨
        urlOk gw.configUrl = false ∨
        urlOk (gw.braintreeApi.map (fun b => b.url)) = false) →
      ∃ e, constructClient input = .error e ∧
        e.code = "CLIENT_GATEWAY_CONFIGURATION_INVALID_DOMAIN" ∧
        e.errType = .merchant) := by
  refine ⟨?_, ?_, ?_, ?_, ?_⟩
  · intro u hu hbad
    have hc : urlOk gw.assetsUrl = false := by rw [hu]; simpa [urlOk] using hbad
    simp only [constructClient, hgw]
    rw [if_pos hc]
  · intro hok1 u hu hbad
    have hc : urlOk gw.clientApiUrl = false := by rw [hu]; simpa [urlOk] using hbad
    simp only [constructClient, hgw]
    rw [if_neg (by simp [hok1]), if_pos hc]
  · intro hok1 hok2 u hu hbad
    have hc : urlOk gw.configUrl = false := by rw [hu]; simpa [urlOk] using hbad
    simp only [constructClient, hgw]
    rw [if_neg (by simp [hok1]), if_neg (by simp [hok2]), if_pos hc]
  · intro hok1 hok2 hok3 bt hb hbad
    have hc : urlOk (gw.braintreeApi.map (fun b => b.url)) = false := by
      rw [hb]
      simpa [urlOk] using hbad
    simp only [constructClient, hgw]
    rw [if_neg (by simp [hok1]), if_neg (by simp [hok2]), if_neg (by simp [hok3]),
      if_pos hc]
  · intro hbad
    simp only [constructClient, hgw]
    by_cases h1 : urlOk gw.assetsUrl = false
    · rw [if_pos h1]
      exact ⟨_, rfl, rfl, rfl⟩
    · rw [if_neg h1]
      by_cases h2 : urlOk gw.clientApiUrl = false
      · rw [if_pos h2]
        exact ⟨_, rfl, rfl, rfl⟩
      · rw [if_neg h2]
        by_cases h3 : urlOk gw.configUrl = false
        · rw [if_pos h3]
          exact ⟨_, rfl, rfl, rfl⟩
        · rw [if_neg h3]
          by_cases h4 : urlOk (gw.braintreeApi.map (fun b => b.url)) = false
          · rw [if_pos h4]
            exact ⟨_, rfl, rfl, rfl⟩
          · rcases hbad with hb | hb | hb | hb <;> simp_all

/-- C8 witness: each of the four fields set to `http://example.com` (the
test suite's untrusted domain) produces the error naming that field. -/
theorem construction_invalid_domain_witness :
    constructClient { gatewayConfiguration := some { assetsUrl := some "http://example.com" } }
      = .error (errors.GATEWAY_CONFIGURATION_INVALID_DOMAIN
          "assetsUrl property is on an invalid domain.") ∧
    constructClient { gatewayConfiguration := some { clientApiUrl := some "http://example.com" } }
      = .error (errors.GATEWAY_CONFIGURATION_INVALID_DOMAIN
          "clientApiUrl property is on an invalid domain.") ∧
    constructClient { gatewayConfiguration := some { configUrl := some "http://example.com" } }
      = .error (errors.GATEWAY_CONFIGURATION_INVALID_DOMAIN
          "configUrl property is on an invalid domain.") ∧
    constructClient { gatewayConfiguration := some { braintreeApi := some { url := "http://example.com", accessToken := "t" } } }
      = .error (errors.GATEWAY_CONFIGURATION_INVALID_DOMAIN
          "braintreeApi URL is on an invalid domain.") :=
  ⟨(construction_invalid_domain _ _ rfl).1 "http://example.com" rfl (by decide),
   (construction_invalid_domain _ _ rfl).2.1 (by decide) "http://example.com" rfl (by decide),
   (construction_invalid_domain _ _ rfl).2.2.1 (by decide) (by decide) "http://example.com"
     rfl (by decide),
   (construction_invalid_domain _ _ rfl).2.2.2.1 (by decide) (by decide) (by decide)
     { url := "http://example.com", accessToken := "t" } rfl (by decide)⟩

/-- C9: `toJSON` always returns what the current `getConfiguration`
member returns: on any client it forwards to `getConfiguration`, and
after the member is replaced by a different function the forwarding
observes the replacement. -/
theorem toJSON_is_current_getConfiguration (c : ClientObj)
    (g : Unit → ConfigurationSnapshot) :
    c.toJSON = c.getConfiguration () ∧
    ClientObj.toJSON { c with getConfiguration := g } = g () :=
  ⟨rfl, rfl⟩

/-- C10: in the configuration-fetch collaborator, a rejected
authorization makes the callback receive the invalid-authorization error
with no network request issued, and the gateway-network error is only
ever delivered for an issued request whose transport failed, wrapping the
failure. -/
theorem fetch_invalid_authorization_no_request
    (parse : String → Option AuthData)
    (transport : FetchRequest → Except JsTree JsTree)
    (meta : JsTree) (auth : String) :
    (parse auth = none →
      getConfigurationFetch parse transport meta auth =
        { issuedRequest := none
          callbackError := some INVALID_AUTHORIZATION
          callbackConfiguration := none }) ∧
    (∀ e, (getConfigurationFetch parse transport meta auth).callbackError = some e →
      e.code = errors.GATEWAY_NETWORK.code →
      ∃ req err,
        (getConfigurationFetch parse transport meta auth).issuedRequest = some req ∧
        transport req = .error err ∧ e.originalError = some err) := by
  constructor
  · intro hp
    simp [getConfigurationFetch, hp]
  · intro e he hcode
    cases hp : parse auth with
    | none =>
      simp only [getConfigurationFetch, hp, Option.some.injEq] at he
      rw [← he] at hcode
      simp [INVALID_AUTHORIZATION, errors.GATEWAY_NETWORK] at hcode
    | some ad =>
      cases ht : transport (fetchRequestOf ad meta) with
      | ok resp =>
        simp [getConfigurationFetch, hp, ht] at he
      | error err =>
        refine ⟨fetchRequestOf ad meta, err, ?_, ht, ?_⟩
        · simp [getConfigurationFetch, hp, ht]
        · simp only [getConfigurationFetch, hp, ht, Option.some.injEq] at he
          rw [← he]

/-- C10 witness: a parser that rejects issues no request; a transport
failure surfaces as the gateway-network wrapping. -/
theorem fetch_invalid_authorization_no_request_witness :
    getConfigurationFetch (fun _ => none) (fun _ => .ok (.node [])) (.node []) "bogus"
      = { issuedRequest := none
          callbackError := some INVALID_AUTHORIZATION
          callbackConfiguration := none } ∧
    (∃ req err,
      (getConfigurationFetch
          (fun _ => some { attrs := [], configUrl := "https://braintreegateway.com/config" })
          (fun _ => .error (.prim "boom")) (.node []) "auth").issuedRequest = some req ∧
      (fun _ => (Except.error (.prim "boom") : Except JsTree JsTree)) req = .error err ∧
      ({ errors.GATEWAY_NETWORK with originalError := some (.prim "boom") } : BtError).originalError
        = some err) :=
  ⟨(fetch_invalid_authorization_no_request (fun _ => none) (fun _ => .ok (.node []))
      (.node []) "bogus").1 rfl,
   (fetch_invalid_authorization_no_request
      (fun _ => some { attrs := [], configUrl := "https://braintreegateway.com/config" })
      (fun _ => .error (.prim "boom")) (.node []) "auth").2
      { errors.GATEWAY_NETWORK with originalError := some (.prim "boom") } rfl rfl⟩

/-- C3: for every stored configuration tree, any sequence of field-write
mutations a caller performs after receiving a `getConfiguration` snapshot
(writes to any heap object at all, the returned snapshot's objects
included) is never observable in a subsequent `getConfiguration` call:
both the first and the later snapshot read back deep-equal to the stored
configuration. -/
theorem getConfiguration_immutable (stored : JsTree) (w : World)
    (hw : w.wf) (ms : List Mutation) :
    deepRead (getConfigurationAlloc stored w).1.heap (heightT stored)
        (getConfigurationAlloc stored w).2 = some stored ∧
    deepRead
        (getConfigurationAlloc stored
          (applyMutations (getConfigurationAlloc stored w).1 ms)).1.heap
        (heightT stored)
        (getConfigurationAlloc stored
          (applyMutations (getConfigurationAlloc stored w).1 ms)).2
      = some stored := by
  have readAt : ∀ w2 : World, w2.wf →
      deepRead (getConfigurationAlloc stored w2).1.heap (heightT stored)
        (getConfigurationAlloc stored w2).2 = some stored := by
    intro w2 hw2
    have hs := allocTree_spec stored w2.heap w2.next hw2
    simpa [getConfigurationAlloc] using hs.2.2.2
  have hw1 : (getConfigurationAlloc stored w).1.wf := by
    intro p hp
    have hs := allocTree_spec stored w.heap w.next hw
    simp only [getConfigurationAlloc] at hp ⊢
    exact hs.2.1 p hp
  exact ⟨readAt w hw,
    readAt (applyMutations (getConfigurationAlloc stored w).1 ms)
      (applyMutations_wf _ ms hw1)⟩

/-- C3 witness: the test-suite scenario — take a snapshot of a small
configuration tree, mutate the returned object (add a field to its
gatewayConfiguration object), and the next snapshot still reads back the
stored configuration. -/
theorem getConfiguration_immutable_witness :
    World.wf ⟨[], 0⟩ ∧
    deepRead
        (getConfigurationAlloc
          (.node [("gatewayConfiguration", .node [("clientApiUrl", .prim "https://braintreegateway.com")])])
          (applyMutations
            (getConfigurationAlloc
              (.node [("gatewayConfiguration", .node [("clientApiUrl", .prim "https://braintreegateway.com")])])
              ⟨[], 0⟩).1
            [⟨0, "yes", .prim "yes"⟩, ⟨1, "yes", .prim "yes"⟩])).1.heap
        (heightT (.node [("gatewayConfiguration", .node [("clientApiUrl", .prim "https://braintreegateway.com")])]))
        (getConfigurationAlloc
          (.node [("gatewayConfiguration", .node [("clientApiUrl", .prim "https://braintreegateway.com")])])
          (applyMutations
            (getConfigurationAlloc
              (.node [("gatewayConfiguration", .node [("clientApiUrl", .prim "https://braintreegateway.com")])])
              ⟨[], 0⟩).1
            [⟨0, "yes", .prim "yes"⟩, ⟨1, "yes", .prim "yes"⟩])).2
      = some (.node [("gatewayConfiguration", .node [("clientApiUrl", .prim "https://braintreegateway.com")])]) :=
  ⟨fun p hp => absurd hp (List.not_mem_nil p),
   (getConfiguration_immutable
      (.node [("gatewayConfiguration", .node [("clientApiUrl", .prim "https://braintreegateway.com")])])
      ⟨[], 0⟩ (fun p hp => absurd hp (List.not_mem_nil p))
      [⟨0, "yes", .prim "yes"⟩, ⟨1, "yes", .prim "yes"⟩]).2⟩

end Braintree
